import Mathlib

/-!
Verification of the structured logger in logger.go (package logger).

The embedding below translates the Go source into Lean:
* Go maps `map[string]string` (the `Fields` type) become association lists
  with insert-or-overwrite update, mirroring Go map assignment.
* The process-wide globals `logLevel`, `service`, `version` set by
  `initConfig` become an explicit `Config` record passed to the operations.
* `time.Now()`, `runtime.Stack` and `runtime.Caller(1)` are inputs of the
  environment, so the emit operations take the current timestamp, the
  captured stack text and the callers file and line as parameters.
* The sink (`l.writer`) is modelled by returning the list of lines that
  `fmt.Fprintln` writes to it; the fallback diagnostic channel
  (`fmt.Printf` / `fmt.Println` to stdout) is a second list of strings.
* `encoding/json` marshalling becomes a total function to a `Json` syntax
  tree plus a renderer; on the field types of `Payload` (strings, an int,
  `map[string]string`) the Go marshaller cannot fail, so the failure
  branch of `log` is exposed through `logWith`, which takes the marshal
  outcome as an argument.
* Go methods mutate the receiver through a pointer.  Every operation here
  returns the state the receiver holds after the call; since `With`
  returns the receiver pointer itself, the returned `Log` and the updated
  receiver are one and the same object.
-/

set_option autoImplicit false

namespace StackdriverLogger

/-- Severity enumeration of logger.go: debug, info, warn, error (iota order). -/
inductive Severity where
  | debug
  | info
  | warn
  | error
  deriving DecidableEq, Repr

/-- Numeric value of a severity, matching the Go iota constants. -/
def Severity.num : Severity → Nat
  | .debug => 0
  | .info => 1
  | .warn => 2
  | .error => 3

/-- The logLevelName table of logger.go. -/
def logLevelName : Severity → String
  | .debug => "DEBUG"
  | .info => "INFO"
  | .warn => "WARN"
  | .error => "ERROR"

/-- Fields is used to wrap the log entries payload (Go: map[string]string).
A Go map is a set of key/value bindings; we represent it as an association
list updated by insert-or-overwrite, so lists built from the empty map have
one binding per key. -/
abbrev Fields := List (String × String)

/-- Go map assignment m[k] = v: overwrite the binding of k if present,
otherwise append a new binding. -/
def Fields.insertKV : Fields → String → String → Fields
  | [], k, v => [(k, v)]
  | (k1, v1) :: rest, k, v =>
      if k = k1 then (k, v) :: rest else (k1, v1) :: Fields.insertKV rest k v

/-- Go map lookup m[k]: the binding of k, if any (first binding; maps built
by insertKV have at most one per key). -/
def Fields.find : Fields → String → Option String
  | [], _ => none
  | (k1, v1) :: rest, k => if k = k1 then some v1 else Fields.find rest k

/-- A well-formed field map has pairwise distinct keys, as every Go map does. -/
def Fields.Wf (f : Fields) : Prop := (f.map Prod.fst).Nodup

instance Fields.decidableWf (f : Fields) : Decidable (Fields.Wf f) :=
  List.nodupDecidable (f.map Prod.fst)

/-- Merge of two field maps: apply every binding of f to m in order,
overwriting on key collision (the Go loop `for k, v := range fields`). -/
def mergeFields (m : Fields) (f : Fields) : Fields :=
  f.foldl (fun acc kv => Fields.insertKV acc kv.1 kv.2) m

mutual

/-- JSON values, as produced by encoding/json for the payload types. -/
inductive Json where
  | null : Json
  | str : String → Json
  | num : Int → Json
  | obj : Members → Json

/-- Ordered member list of a JSON object. -/
inductive Members where
  | nil : Members
  | cons : String → Json → Members → Members

end

/-- Lookup of a key among the members of a JSON object. -/
def Members.lookup : Members → String → Option Json
  | .nil, _ => none
  | .cons k v rest, key => if key = k then some v else Members.lookup rest key

/-- Lookup of a key in a JSON value: members of an object, none otherwise. -/
def Json.lookup : Json → String → Option Json
  | .obj ms, key => Members.lookup ms key
  | _, _ => none

/-- Lower-case hexadecimal digit, for escaped control characters. -/
def hexDigit (n : Nat) : Char :=
  if n < 10 then Char.ofNat (48 + n) else Char.ofNat (87 + n)

/-- Escaping of one character as the Go JSON encoder does (quotes,
backslashes, common control characters, HTML-relevant characters;
other control characters as \u00XX). -/
def escapeChar (c : Char) : String :=
  if c = '"' then "\\\""
  else if c = '\\' then "\\\\"
  else if c = '\n' then "\\n"
  else if c = '\r' then "\\r"
  else if c = '\t' then "\\t"
  else if c = '<' then "\\u003c"
  else if c = '>' then "\\u003e"
  else if c = '&' then "\\u0026"
  else if c.toNat < 32 then
    "\\u00" ++ String.mk [hexDigit (c.toNat / 16), hexDigit (c.toNat % 16)]
  else String.singleton c

/-- A JSON string literal: quoted and escaped. -/
def jsonQuote (s : String) : String :=
  "\"" ++ String.join (s.data.map escapeChar) ++ "\""

mutual

/-- Rendering of a JSON value to its single-line textual form. -/
def Json.render : Json → String
  | .null => "null"
  | .str s => jsonQuote s
  | .num n => toString n
  | .obj ms => "\x7b" ++ Members.render ms ++ "\x7d"

/-- Rendering of object members, comma-separated. -/
def Members.render : Members → String
  | .nil => ""
  | .cons k v .nil => jsonQuote k ++ ":" ++ Json.render v
  | .cons k v rest => jsonQuote k ++ ":" ++ Json.render v ++ "," ++ Members.render rest

end

/-- ServiceContext is required by the Stackdriver Error format. -/
structure ServiceContext where
  service : String
  version : String
  deriving DecidableEq, Repr

/-- ReportLocation is required by the Stackdriver Error format. -/
structure ReportLocation where
  filePath : String
  functionName : String
  lineNumber : Int
  deriving DecidableEq, Repr

/-- Context is required by the Stackdriver Error format.
Data carries the accumulated fields, ReportLocation is a nilable pointer. -/
structure Context where
  data : Fields
  reportLocation : Option ReportLocation
  deriving DecidableEq, Repr

/-- Payload groups all the data for a log entry.  Field defaults are the Go
zero values.  serviceContext is a pointer WITHOUT omitempty in the struct
tag; caller, context and stacktrace carry omitempty. -/
structure Payload where
  severity : String := ""
  eventTime : String := ""
  caller : String := ""
  message : String := ""
  serviceContext : Option ServiceContext := none
  context : Option Context := none
  stacktrace : String := ""
  deriving DecidableEq, Repr

/-- Log is the main type of the logger package.  The writer is modelled by
the returned output, so only the payload pointer remains as state. -/
structure Log where
  payload : Payload
  deriving DecidableEq, Repr

/-- The process-wide configuration globals logLevel, service and version,
normally filled from the environment by init(). -/
structure Config where
  logLevel : Severity
  service : String
  version : String
  deriving DecidableEq, Repr

/-- initConfig of logger.go: store the three configuration globals. -/
def initConfig (lvl : Severity) (svc ver : String) : Config :=
  { logLevel := lvl, service := svc, version := ver }

/-- Everything one call writes: the lines Fprintln sends to the sink
(each terminated by one newline) and the diagnostics printed to the
fallback channel. -/
structure Output where
  lines : List String
  fallback : List String
  deriving DecidableEq, Repr

/-- The empty output of a filtered-out call. -/
def Output.empty : Output := { lines := [], fallback := [] }

/-- Member list with k bound to a string value, unless the string is empty:
the omitempty rule for string-typed struct fields. -/
def consIfNonEmptyStr (k : String) (v : String) (rest : Members) : Members :=
  if v = "" then rest else Members.cons k (Json.str v) rest

/-- Marshalling of a field map: one string member per binding.  Maps built
by the logger through insertKV keep one binding per key. -/
def marshalFields : Fields → Members
  | [] => .nil
  | (k, v) :: rest => .cons k (.str v) (marshalFields rest)

/-- Marshalling of ServiceContext: service and version both carry omitempty. -/
def marshalServiceContext (sc : ServiceContext) : Json :=
  .obj (consIfNonEmptyStr "service" sc.service
       (consIfNonEmptyStr "version" sc.version .nil))

/-- Marshalling of ReportLocation: filePath, functionName, lineNumber,
none with omitempty. -/
def marshalReportLocation (rl : ReportLocation) : Json :=
  .obj (.cons "filePath" (.str rl.filePath)
       (.cons "functionName" (.str rl.functionName)
       (.cons "lineNumber" (.num rl.lineNumber) .nil)))

/-- Marshalling of Context: data (omitempty, dropped when the map is empty)
then reportLocation (omitempty, dropped when the pointer is nil). -/
def marshalContext (c : Context) : Json :=
  .obj ((fun rest => if c.data.isEmpty then rest
                     else Members.cons "data" (.obj (marshalFields c.data)) rest)
        (match c.reportLocation with
         | none => .nil
         | some rl => .cons "reportLocation" (marshalReportLocation rl) .nil))

/-- Marshalling of Payload, members in struct order: severity, eventTime,
caller (omitempty), message, serviceContext (NO omitempty: a nil pointer
becomes null, a present one an object), context (omitempty),
stacktrace (omitempty). -/
def marshalPayload (p : Payload) : Json :=
  .obj (.cons "severity" (.str p.severity)
       (.cons "eventTime" (.str p.eventTime)
       (consIfNonEmptyStr "caller" p.caller
       (.cons "message" (.str p.message)
       (.cons "serviceContext"
          (match p.serviceContext with
           | none => Json.null
           | some sc => marshalServiceContext sc)
       ((fun rest => match p.context with
                     | none => rest
                     | some c => Members.cons "context" (marshalContext c) rest)
        (consIfNonEmptyStr "stacktrace" p.stacktrace .nil)))))))

/-- New instantiates and returns a Log object.  It always succeeds; the
service identity comes from the configuration globals, all other payload
fields start at their zero values. -/
def New (cfg : Config) : Log :=
  { payload := { serviceContext := some { service := cfg.service, version := cfg.version } } }

/-- The set method of logger.go: create the context with an empty Data map
if it is nil, then assign Data[key] = val in place. -/
def Log.set (l : Log) (key val : String) : Log :=
  let ctx := match l.payload.context with
    | none => { data := [], reportLocation := none : Context }
    | some c => c
  { l with payload := { l.payload with
      context := some { ctx with data := ctx.data.insertKV key val } } }

/-- With of logger.go: `for k, v := range fields { l.set(k, v) }; return l`.
It writes through the receiver pointer and returns that same pointer, so
the returned Log is also the state the receiver holds after the call. -/
def Log.With (l : Log) (fields : Fields) : Log :=
  fields.foldl (fun acc kv => acc.set kv.1 kv.2) l

/-- The accumulated context field map of a logger: empty when the context
pointer is nil. -/
def Log.fields (l : Log) : Fields :=
  match l.payload.context with
  | none => []
  | some c => c.data

/-- The tail of the log method of logger.go, from the marshal call on, with
the marshal outcome as an argument: on error, print the diagnostic to the
fallback channel; either way Fprintln writes string(payload) plus a newline
to the writer, and on error string(nil) is the empty string.  The logger
argument already holds the payload assigned at the top of log. -/
def logWith (l : Log) (res : Except String Json) : Log × Output :=
  match res with
  | .ok j => (l, { lines := [Json.render j], fallback := [] })
  | .error e =>
      (l, { lines := [""],
            fallback := ["logger error: cannot marshal payload: " ++ e] })

/-- The log method of logger.go: overwrite l.payload with a fresh Payload
keeping ServiceContext, Context and Stacktrace, marshal it and write one
line.  On the field types of Payload the Go marshaller is total, hence the
ok branch. -/
def Log.log (l : Log) (now : String) (severity message : String) : Log × Output :=
  let p : Payload :=
    { severity := severity
      eventTime := now
      message := message
      serviceContext := l.payload.serviceContext
      context := l.payload.context
      stacktrace := l.payload.stacktrace }
  logWith { payload := p } (.ok (marshalPayload p))

/-- isValidLogLevel of logger.go: the severity passes when s >= logLevel. -/
def isValidLogLevel (cfg : Config) (s : Severity) : Bool :=
  cfg.logLevel.num ≤ s.num

/-- Debug prints out a message with DEBUG severity level. -/
def Log.Debug (l : Log) (cfg : Config) (now message : String) : Log × Output :=
  if !isValidLogLevel cfg .debug then (l, Output.empty)
  else l.log now (logLevelName .debug) message

/-- Metric prints out a message with INFO severity and no extra fields. -/
def Log.Metric (l : Log) (cfg : Config) (now message : String) : Log × Output :=
  if !isValidLogLevel cfg .info then (l, Output.empty)
  else l.log now (logLevelName .info) message

/-- Info prints out a message with INFO severity level. -/
def Log.Info (l : Log) (cfg : Config) (now message : String) : Log × Output :=
  if !isValidLogLevel cfg .info then (l, Output.empty)
  else l.log now (logLevelName .info) message

/-- Warn prints out a message with WARN severity level. -/
def Log.Warn (l : Log) (cfg : Config) (now message : String) : Log × Output :=
  if !isValidLogLevel cfg .warn then (l, Output.empty)
  else l.log now (logLevelName .warn) message

/-- Error prints out a message with ERROR severity level.  stack is the
text runtime.Stack captured (trimmed of NUL padding), file and line come
from runtime.Caller(1), the immediate call site of Error; the function
name is written as the literal "unknown".  Error performs no level check:
ERROR is the maximal severity, never below the threshold. -/
def Log.Error (l : Log) (cfg : Config) (now stack file : String) (line : Int)
    (message : String) : Log × Output :=
  let ctx := match l.payload.context with
    | none => { data := [], reportLocation := none : Context }
    | some c => c
  let withLoc : Log :=
    { payload :=
      { serviceContext := l.payload.serviceContext
        context := some
          { data := ctx.data
            reportLocation := some
              { filePath := file, functionName := "unknown", lineNumber := line } }
        stacktrace := stack } }
  withLoc.log now (logLevelName .error) message

/-- Debugf formats with fmt.Sprintf and delegates to Debug; the formatter
is external, so the already formatted string is the argument. -/
def Log.Debugf (l : Log) (cfg : Config) (now formatted : String) : Log × Output :=
  l.Debug cfg now formatted

/-- Infof formats with fmt.Sprintf and delegates to Info. -/
def Log.Infof (l : Log) (cfg : Config) (now formatted : String) : Log × Output :=
  l.Info cfg now formatted

/-- Warnf formats with fmt.Sprintf and delegates to Warn. -/
def Log.Warnf (l : Log) (cfg : Config) (now formatted : String) : Log × Output :=
  l.Warn cfg now formatted

/-- Errorf formats with fmt.Sprintf and delegates to Error. -/
def Log.Errorf (l : Log) (cfg : Config) (now stack file : String) (line : Int)
    (formatted : String) : Log × Output :=
  l.Error cfg now stack file line formatted

/-- The emit operation of a given severity: Debug, Info, Warn or Error.
The stack, file and line arguments are used by the error path only. -/
def Log.emitAt (l : Log) (s : Severity) (cfg : Config) (now stack file : String)
    (line : Int) (message : String) : Log × Output :=
  match s with
  | .debug => l.Debug cfg now message
  | .info => l.Info cfg now message
  | .warn => l.Warn cfg now message
  | .error => l.Error cfg now stack file line message

/-! ## Basic lemmas about the field maps and JSON lookups -/

@[simp]
theorem Members.lookup_nil (key : String) : Members.lookup .nil key = none := rfl

@[simp]
theorem Members.lookup_cons (k : String) (v : Json) (rest : Members) (key : String) :
    Members.lookup (.cons k v rest) key = if key = k then some v else Members.lookup rest key := rfl

theorem Log.fields_set (l : Log) (k v : String) :
    (l.set k v).fields = l.fields.insertKV k v := by
  cases h : l.payload.context <;> simp [Log.set, Log.fields, h]

theorem mergeFields_cons (m : Fields) (kv : String × String) (rest : Fields) :
    mergeFields m (kv :: rest) = mergeFields (m.insertKV kv.1 kv.2) rest := rfl

theorem Log.fields_With (l : Log) (F : Fields) :
    (l.With F).fields = mergeFields l.fields F := by
  induction F generalizing l with
  | nil => rfl
  | cons kv rest ih =>
      have h1 : l.With (kv :: rest) = (l.set kv.1 kv.2).With rest := rfl
      rw [h1, mergeFields_cons, ih, Log.fields_set]

theorem Fields.find_insertKV_self (m : Fields) (k v : String) :
    (m.insertKV k v).find k = some v := by
  induction m with
  | nil => simp [Fields.insertKV, Fields.find]
  | cons kv rest ih =>
      obtain ⟨k1, v1⟩ := kv
      by_cases hk : k = k1 <;> simp [Fields.insertKV, Fields.find, hk, ih]

theorem Fields.find_insertKV_ne (m : Fields) (k k1 v1 : String) (h : k ≠ k1) :
    (m.insertKV k1 v1).find k = m.find k := by
  induction m with
  | nil => simp [Fields.insertKV, Fields.find, h]
  | cons kv rest ih =>
      obtain ⟨k2, v2⟩ := kv
      by_cases h2 : k1 = k2
      · subst h2
        simp [Fields.insertKV, Fields.find, h]
      · simp [Fields.insertKV, Fields.find, h2, ih]

theorem Fields.find_mergeFields_of_not_mem (F : Fields) (m : Fields) (k : String)
    (h : k ∉ F.map Prod.fst) : (mergeFields m F).find k = m.find k := by
  induction F generalizing m with
  | nil => rfl
  | cons kv rest ih =>
      simp only [List.map_cons, List.mem_cons] at h
      push_neg at h
      rw [mergeFields_cons, ih _ h.2, Fields.find_insertKV_ne _ _ _ _ h.1]

theorem Fields.find_mergeFields_wf (F : Fields) (m : Fields) (k v : String)
    (hwf : Fields.Wf F) (h : F.find k = some v) : (mergeFields m F).find k = some v := by
  induction F generalizing m with
  | nil => simp [Fields.find] at h
  | cons kv rest ih =>
      obtain ⟨k1, v1⟩ := kv
      rw [Fields.Wf, List.map_cons, List.nodup_cons] at hwf
      by_cases hk : k = k1
      · subst hk
        rw [Fields.find] at h
        simp only [if_pos] at h
        obtain rfl : v1 = v := Option.some.inj h
        rw [mergeFields_cons]
        rw [Fields.find_mergeFields_of_not_mem _ _ _ hwf.1]
        exact Fields.find_insertKV_self _ _ _
      · rw [Fields.find, if_neg hk] at h
        rw [mergeFields_cons]
        exact ih _ hwf.2 h

/-- A fixed example configuration (threshold DEBUG, identity set). -/
def cfgEx : Config := { logLevel := .debug, service := "svc", version := "1.0" }

/-! ## C1 -/

/-- C1 counterexample: the claim states that after `L.With(F1).With(F2)` the
context map of L itself is unchanged.  In the source, With writes through the
receiver pointer (set assigns into l.payload.Context.Data) and returns that
same pointer, so the state L holds after the calls is the returned logger.
For L = New and F1 = [(a,1)], F2 = [(b,2)], that state carries both fields
while L started with an empty context: the receiver IS mutated. -/
theorem with_mutates_receiver_counterexample :
    (((New cfgEx).With [("a", "1")]).With [("b", "2")]).fields ≠ (New cfgEx).fields := by
  decide

/-- C1 amended: L.With(F1).With(F2) does yield the context
merge(merge(context(L), F1), F2), and F2 takes precedence on overlapping
keys; but this merged map is also the state of the receiver afterwards,
since With mutates L in place and returns it. -/
theorem with_with_yields_merged_context (l : Log) (F1 F2 : Fields) (hF2 : Fields.Wf F2) :
    ((l.With F1).With F2).fields = mergeFields (mergeFields l.fields F1) F2 ∧
    ∀ k v, F2.find k = some v → (((l.With F1).With F2).fields).find k = some v := by
  constructor
  · rw [Log.fields_With, Log.fields_With]
  · intro k v hk
    rw [Log.fields_With, Log.fields_With]
    exact Fields.find_mergeFields_wf _ _ _ _ hF2 hk

/-- C1 amended, witness: concrete double With with an overlapping key. -/
theorem with_with_yields_merged_context_witness :
    (((New cfgEx).With [("a", "1")]).With [("a", "2"), ("b", "3")]).fields
        = mergeFields (mergeFields (New cfgEx).fields [("a", "1")]) [("a", "2"), ("b", "3")] ∧
    Fields.find ((((New cfgEx).With [("a", "1")]).With [("a", "2"), ("b", "3")]).fields) "a"
        = some "2" :=
  ⟨(with_with_yields_merged_context (New cfgEx) [("a", "1")] [("a", "2"), ("b", "3")]
      (by decide)).1,
   (with_with_yields_merged_context (New cfgEx) [("a", "1")] [("a", "2"), ("b", "3")]
      (by decide)).2 "a" "2" (by decide)⟩

/-! ## Lemmas about the marshalled payload and the emission paths -/

theorem marshalPayload_lookup_severity (p : Payload) :
    Json.lookup (marshalPayload p) "severity" = some (.str p.severity) := by
  simp [marshalPayload, Json.lookup]

theorem marshalPayload_lookup_message (p : Payload) (hc : p.caller = "") :
    Json.lookup (marshalPayload p) "message" = some (.str p.message) := by
  simp [marshalPayload, Json.lookup, consIfNonEmptyStr, hc]

theorem marshalPayload_lookup_serviceContext (p : Payload) (hc : p.caller = "")
    (sc : ServiceContext) (hsc : p.serviceContext = some sc) :
    Json.lookup (marshalPayload p) "serviceContext" = some (marshalServiceContext sc) := by
  simp [marshalPayload, Json.lookup, consIfNonEmptyStr, hc, hsc]

theorem marshalPayload_lookup_context (p : Payload) (hc : p.caller = "")
    (c : Context) (hctx : p.context = some c) :
    Json.lookup (marshalPayload p) "context" = some (marshalContext c) := by
  simp [marshalPayload, Json.lookup, consIfNonEmptyStr, hc, hctx]

theorem marshalPayload_lookup_context_none (p : Payload) (hc : p.caller = "")
    (hctx : p.context = none) :
    Json.lookup (marshalPayload p) "context" = none := by
  by_cases hst : p.stacktrace = "" <;>
    simp [marshalPayload, Json.lookup, consIfNonEmptyStr, hc, hctx, hst]

theorem marshalPayload_lookup_stacktrace (p : Payload) (hc : p.caller = "")
    (hst : p.stacktrace ≠ "") :
    Json.lookup (marshalPayload p) "stacktrace" = some (.str p.stacktrace) := by
  cases hctx : p.context <;>
    simp [marshalPayload, Json.lookup, consIfNonEmptyStr, hc, hctx, hst]

theorem marshalContext_lookup_reportLocation (c : Context) (rl : ReportLocation)
    (h : c.reportLocation = some rl) :
    Json.lookup (marshalContext c) "reportLocation" = some (marshalReportLocation rl) := by
  by_cases hd : c.data.isEmpty <;> simp [marshalContext, Json.lookup, h, hd]

theorem marshalContext_lookup_data (c : Context) :
    Json.lookup (marshalContext c) "data"
      = if c.data.isEmpty then none else some (.obj (marshalFields c.data)) := by
  by_cases hd : c.data.isEmpty <;>
    cases hrl : c.reportLocation <;> simp [marshalContext, Json.lookup, hd, hrl]

/-- One call of the log method always emits exactly the rendering of the
marshalled payload, whose severity and message members are the passed
severity name and message. -/
theorem log_emits (l : Log) (now sev msg : String) :
    ∃ j : Json, (l.log now sev msg).2.lines = [Json.render j] ∧
      Json.lookup j "severity" = some (.str sev) ∧
      Json.lookup j "message" = some (.str msg) := by
  refine ⟨marshalPayload
      { severity := sev, eventTime := now, message := msg,
        serviceContext := l.payload.serviceContext,
        context := l.payload.context,
        stacktrace := l.payload.stacktrace }, rfl, ?_, ?_⟩
  · exact marshalPayload_lookup_severity _
  · exact marshalPayload_lookup_message _ rfl

theorem Debug_passes (l : Log) (cfg : Config) (now msg : String)
    (h : isValidLogLevel cfg .debug = true) :
    l.Debug cfg now msg = l.log now (logLevelName .debug) msg := by
  simp [Log.Debug, h]

theorem Info_passes (l : Log) (cfg : Config) (now msg : String)
    (h : isValidLogLevel cfg .info = true) :
    l.Info cfg now msg = l.log now (logLevelName .info) msg := by
  simp [Log.Info, h]

theorem Warn_passes (l : Log) (cfg : Config) (now msg : String)
    (h : isValidLogLevel cfg .warn = true) :
    l.Warn cfg now msg = l.log now (logLevelName .warn) msg := by
  simp [Log.Warn, h]

/-- Error rewritten as one call of log: whatever the receiver held, the
payload it logs carries the accumulated fields, the report location built
from the Error call site, and the captured stack text. -/
theorem Error_eq_log (l : Log) (cfg : Config) (now stack file : String) (line : Int)
    (msg : String) :
    l.Error cfg now stack file line msg =
      Log.log
        { payload :=
          { serviceContext := l.payload.serviceContext
            context := some
              { data := l.fields
                reportLocation := some
                  { filePath := file, functionName := "unknown", lineNumber := line } }
            stacktrace := stack } }
        now (logLevelName .error) msg := by
  cases h : l.payload.context <;> simp [Log.Error, Log.fields, h]

theorem isValidLogLevel_of_le (cfg : Config) (s : Severity)
    (h : cfg.logLevel.num ≤ s.num) : isValidLogLevel cfg s = true := by
  simpa [isValidLogLevel] using h

/-! ## C4 -/

/-- C4: emitting at a severity strictly below the configured threshold
writes nothing to the sink, nothing to the fallback channel, and leaves the
logger state unchanged.  ERROR, the maximal severity, is never strictly
below the threshold, so its lack of a level check never matters here. -/
theorem emit_below_threshold_writes_nothing (l : Log) (s : Severity) (cfg : Config)
    (now stack file : String) (line : Int) (msg : String)
    (h : s.num < cfg.logLevel.num) :
    l.emitAt s cfg now stack file line msg = (l, Output.empty) := by
  obtain ⟨lvl, svc, ver⟩ := cfg
  cases s <;> cases lvl <;>
    simp_all [Log.emitAt, Log.Debug, Log.Info, Log.Warn, isValidLogLevel, Severity.num]

/-- C4 witness: a DEBUG call under an INFO threshold is silent. -/
theorem emit_below_threshold_writes_nothing_witness :
    (New (initConfig .info "svc" "1.0")).emitAt .debug (initConfig .info "svc" "1.0")
        "T" "" "" 0 "m" = (New (initConfig .info "svc" "1.0"), Output.empty) :=
  emit_below_threshold_writes_nothing (New (initConfig .info "svc" "1.0")) .debug
    (initConfig .info "svc" "1.0") "T" "" "" 0 "m" (by decide)

/-! ## C5 -/

/-- C5: emitting at a severity at or above the configured threshold writes
exactly one line, the rendering of one JSON object whose severity member is
the severity name and whose message member is exactly the string passed. -/
theorem emit_at_or_above_threshold_one_json_line (l : Log) (s : Severity) (cfg : Config)
    (now stack file : String) (line : Int) (msg : String)
    (h : cfg.logLevel.num ≤ s.num) :
    ∃ j : Json,
      (l.emitAt s cfg now stack file line msg).2.lines = [Json.render j] ∧
      Json.lookup j "severity" = some (.str (logLevelName s)) ∧
      Json.lookup j "message" = some (.str msg) := by
  cases s with
  | debug =>
      rw [Log.emitAt, Debug_passes _ _ _ _ (isValidLogLevel_of_le cfg .debug h)]
      exact log_emits _ _ _ _
  | info =>
      rw [Log.emitAt, Info_passes _ _ _ _ (isValidLogLevel_of_le cfg .info h)]
      exact log_emits _ _ _ _
  | warn =>
      rw [Log.emitAt, Warn_passes _ _ _ _ (isValidLogLevel_of_le cfg .warn h)]
      exact log_emits _ _ _ _
  | error =>
      rw [Log.emitAt, Error_eq_log]
      exact log_emits _ _ _ _

/-- C5 witness: an INFO call at an INFO threshold emits one JSON line
carrying severity INFO and the exact message. -/
theorem emit_at_or_above_threshold_one_json_line_witness :
    ∃ j : Json,
      ((New (initConfig .info "svc" "1.0")).emitAt .info (initConfig .info "svc" "1.0")
          "T" "" "" 0 "hello").2.lines = [Json.render j] ∧
      Json.lookup j "severity" = some (.str (logLevelName .info)) ∧
      Json.lookup j "message" = some (.str "hello") :=
  emit_at_or_above_threshold_one_json_line (New (initConfig .info "svc" "1.0")) .info
    (initConfig .info "svc" "1.0") "T" "" "" 0 "hello" (by decide)

/-! ## C3 -/

/-- C3: every ERROR emission writes one JSON entry carrying a stacktrace
member and a reportLocation member inside its context member, even when the
accumulated field map is empty (the entry is emitted for every logger
state).  The hypothesis records that runtime.Stack always yields nonempty
text, so the omitempty rule never drops the stacktrace member. -/
theorem error_entry_has_stacktrace_and_reportLocation (l : Log) (cfg : Config)
    (now stack file : String) (line : Int) (msg : String) (hstack : stack ≠ "") :
    ∃ j : Json,
      (l.Error cfg now stack file line msg).2.lines = [Json.render j] ∧
      (Json.lookup j "stacktrace").isSome = true ∧
      ∃ cj : Json, Json.lookup j "context" = some cj ∧
        (Json.lookup cj "reportLocation").isSome = true := by
  rw [Error_eq_log]
  refine ⟨marshalPayload
      { severity := logLevelName .error, eventTime := now, message := msg,
        serviceContext := l.payload.serviceContext,
        context := some
          { data := l.fields
            reportLocation := some
              { filePath := file, functionName := "unknown", lineNumber := line } },
        stacktrace := stack }, rfl, ?_, ?_⟩
  · rw [marshalPayload_lookup_stacktrace _ rfl hstack]
    rfl
  · refine ⟨marshalContext
      { data := l.fields
        reportLocation := some
          { filePath := file, functionName := "unknown", lineNumber := line } },
      marshalPayload_lookup_context _ rfl _ rfl, ?_⟩
    rw [marshalContext_lookup_reportLocation _ _ rfl]
    rfl

/-- C3 witness: an Error call on a fresh logger with no context fields. -/
theorem error_entry_has_stacktrace_and_reportLocation_witness :
    ∃ j : Json,
      ((New cfgEx).Error cfgEx "T" "goroutine 1 [running]:" "main.go" 42 "boom").2.lines
        = [Json.render j] ∧
      (Json.lookup j "stacktrace").isSome = true ∧
      ∃ cj : Json, Json.lookup j "context" = some cj ∧
        (Json.lookup cj "reportLocation").isSome = true :=
  error_entry_has_stacktrace_and_reportLocation (New cfgEx) cfgEx "T"
    "goroutine 1 [running]:" "main.go" 42 "boom" (by decide)

/-! ## C6 -/

/-- C6 counterexample: at a concrete Error call site sitting at main.go
line 42 inside the function main.main, the emitted reportLocation carries
the constant functionName "unknown", which does not name the function of
the call site: the claim that the captured (file, function, line) triple
identifies the call site fails in its function-name component. -/
theorem error_reportLocation_functionName_not_caller_function :
    (∃ j cj rj : Json,
      ((New cfgEx).Error cfgEx "T" "goroutine 1 [running]:" "main.go" 42 "boom").2.lines
        = [Json.render j] ∧
      Json.lookup j "context" = some cj ∧
      Json.lookup cj "reportLocation" = some rj ∧
      Json.lookup rj "functionName" = some (.str "unknown")) ∧
    ("unknown" : String) ≠ "main.main" := by
  constructor
  · exact ⟨marshalPayload
        { severity := logLevelName .error, eventTime := "T", message := "boom",
          serviceContext := some { service := "svc", version := "1.0" },
          context := some
            { data := []
              reportLocation := some
                { filePath := "main.go", functionName := "unknown", lineNumber := 42 } },
          stacktrace := "goroutine 1 [running]:" },
      marshalContext
        { data := []
          reportLocation := some
            { filePath := "main.go", functionName := "unknown", lineNumber := 42 } },
      marshalReportLocation
        { filePath := "main.go", functionName := "unknown", lineNumber := 42 },
      rfl, rfl, rfl, rfl⟩
  · decide

/-- C6 amended: for every Error call the emitted reportLocation is built
from the file path and line number of the immediate call site of Error
(the runtime.Caller(1) arguments), with functionName always the literal
"unknown"; it never depends on the logger state, so earlier With calls
cannot influence it. -/
theorem error_reportLocation_from_error_call_site (l : Log) (cfg : Config)
    (now stack file : String) (line : Int) (msg : String) :
    ∃ j cj : Json,
      (l.Error cfg now stack file line msg).2.lines = [Json.render j] ∧
      Json.lookup j "context" = some cj ∧
      Json.lookup cj "reportLocation" = some (marshalReportLocation
        { filePath := file, functionName := "unknown", lineNumber := line }) := by
  rw [Error_eq_log]
  exact ⟨marshalPayload
      { severity := logLevelName .error, eventTime := now, message := msg,
        serviceContext := l.payload.serviceContext,
        context := some
          { data := l.fields
            reportLocation := some
              { filePath := file, functionName := "unknown", lineNumber := line } },
        stacktrace := stack },
    marshalContext
      { data := l.fields
        reportLocation := some
          { filePath := file, functionName := "unknown", lineNumber := line } },
    rfl, marshalPayload_lookup_context _ rfl _ rfl,
    marshalContext_lookup_reportLocation _ _ rfl⟩

/-! ## C7 -/

/-- One call of the log method emits an entry whose context carries a data
member exactly when the accumulated field map of the logged state is
nonempty (data has omitempty, and a nil context pointer is dropped). -/
theorem log_data_key (l : Log) (now sev msg : String) :
    ∃ j : Json, (l.log now sev msg).2.lines = [Json.render j] ∧
      ((∃ cj, Json.lookup j "context" = some cj ∧ (Json.lookup cj "data").isSome = true)
        ↔ l.fields ≠ []) := by
  refine ⟨marshalPayload
      { severity := sev, eventTime := now, message := msg,
        serviceContext := l.payload.serviceContext,
        context := l.payload.context,
        stacktrace := l.payload.stacktrace }, rfl, ?_⟩
  cases hctx : l.payload.context with
  | none =>
      rw [marshalPayload_lookup_context_none _ rfl rfl]
      simp [Log.fields, hctx]
  | some c =>
      rw [marshalPayload_lookup_context _ rfl c rfl]
      simp only [Option.some.injEq]
      cases hd : c.data with
      | nil => simp [marshalContext_lookup_data, Log.fields, hctx, hd]
      | cons kv rest => simp [marshalContext_lookup_data, Log.fields, hctx, hd]

/-- C7: for every emission that passes the threshold, the entry carries a
context.data member exactly when the accumulated field map is nonempty at
emission time; in particular an Error call with no prior context yields a
context holding only a reportLocation and no data member. -/
theorem context_data_key_iff_fields_nonempty (l : Log) (s : Severity) (cfg : Config)
    (now stack file : String) (line : Int) (msg : String)
    (h : cfg.logLevel.num ≤ s.num) :
    ∃ j : Json,
      (l.emitAt s cfg now stack file line msg).2.lines = [Json.render j] ∧
      ((∃ cj, Json.lookup j "context" = some cj ∧ (Json.lookup cj "data").isSome = true)
        ↔ l.fields ≠ []) := by
  cases s with
  | debug =>
      rw [Log.emitAt, Debug_passes _ _ _ _ (isValidLogLevel_of_le cfg .debug h)]
      exact log_data_key _ _ _ _
  | info =>
      rw [Log.emitAt, Info_passes _ _ _ _ (isValidLogLevel_of_le cfg .info h)]
      exact log_data_key _ _ _ _
  | warn =>
      rw [Log.emitAt, Warn_passes _ _ _ _ (isValidLogLevel_of_le cfg .warn h)]
      exact log_data_key _ _ _ _
  | error =>
      rw [Log.emitAt, Error_eq_log]
      exact log_data_key _ _ _ _

/-- C7 witness: an Error call with no prior context emits no data member. -/
theorem context_data_key_iff_fields_nonempty_witness :
    ∃ j : Json,
      ((New cfgEx).emitAt .error cfgEx "T" "goroutine 1 [running]:" "main.go" 42 "boom").2.lines
        = [Json.render j] ∧
      ((∃ cj, Json.lookup j "context" = some cj ∧ (Json.lookup cj "data").isSome = true)
        ↔ (New cfgEx).fields ≠ []) :=
  context_data_key_iff_fields_nonempty (New cfgEx) .error cfgEx "T"
    "goroutine 1 [running]:" "main.go" 42 "boom" (by decide)

/-! ## C8 -/

/-- A fixed configuration whose service identity is unset. -/
def cfgNoId : Config := { logLevel := .debug, service := "", version := "" }

/-- C8 counterexample: with the service name and version empty, an emitted
entry still carries the serviceContext member — as the empty object — since
the serviceContext struct tag has no omitempty; the claim that the key is
omitted entirely fails. -/
theorem serviceContext_present_with_empty_identity :
    ∃ j : Json, ((New cfgNoId).Info cfgNoId "T" "hello").2.lines = [Json.render j] ∧
      Json.lookup j "serviceContext" = some (.obj .nil) :=
  ⟨marshalPayload
      { severity := logLevelName .info, eventTime := "T", message := "hello",
        serviceContext := some { service := "", version := "" },
        context := none, stacktrace := "" }, rfl, rfl⟩

/-- One call of the log method emits an entry whose serviceContext member
is the marshalling of the stored service identity. -/
theorem log_serviceContext (l : Log) (now sev msg : String) (sc : ServiceContext)
    (hsc : l.payload.serviceContext = some sc) :
    ∃ j : Json, (l.log now sev msg).2.lines = [Json.render j] ∧
      Json.lookup j "serviceContext" = some (marshalServiceContext sc) :=
  ⟨marshalPayload
      { severity := sev, eventTime := now, message := msg,
        serviceContext := l.payload.serviceContext,
        context := l.payload.context,
        stacktrace := l.payload.stacktrace }, rfl,
   marshalPayload_lookup_serviceContext _ rfl _ hsc⟩

/-- C8 amended: with the service name and version empty, construction still
succeeds — New returns a logger carrying the empty identity — and every
entry passing the threshold carries a serviceContext member equal to the
empty JSON object (its service and version members omitted within it),
rather than omitting the serviceContext key itself. -/
theorem empty_identity_construction_and_empty_serviceContext (cfg : Config) (l : Log)
    (s : Severity) (now stack file : String) (line : Int) (msg : String)
    (hs : cfg.service = "") (hv : cfg.version = "")
    (hl : l.payload.serviceContext = some { service := cfg.service, version := cfg.version })
    (h : cfg.logLevel.num ≤ s.num) :
    New cfg = { payload := { serviceContext := some { service := "", version := "" } } } ∧
    ∃ j : Json,
      (l.emitAt s cfg now stack file line msg).2.lines = [Json.render j] ∧
      Json.lookup j "serviceContext" = some (.obj .nil) := by
  rw [hs, hv] at hl
  constructor
  · simp [New, hs, hv]
  · cases s with
    | debug =>
        rw [Log.emitAt, Debug_passes _ _ _ _ (isValidLogLevel_of_le cfg .debug h)]
        exact log_serviceContext _ _ _ _ _ hl
    | info =>
        rw [Log.emitAt, Info_passes _ _ _ _ (isValidLogLevel_of_le cfg .info h)]
        exact log_serviceContext _ _ _ _ _ hl
    | warn =>
        rw [Log.emitAt, Warn_passes _ _ _ _ (isValidLogLevel_of_le cfg .warn h)]
        exact log_serviceContext _ _ _ _ _ hl
    | error =>
        rw [Log.emitAt, Error_eq_log]
        exact log_serviceContext
          { payload :=
            { serviceContext := l.payload.serviceContext
              context := some
                { data := l.fields
                  reportLocation := some
                    { filePath := file, functionName := "unknown", lineNumber := line } }
              stacktrace := stack } } now (logLevelName .error) msg _ hl

/-- C8 amended, witness: a fresh logger with empty identity at DEBUG
threshold emitting at INFO. -/
theorem empty_identity_construction_and_empty_serviceContext_witness :
    New cfgNoId = { payload := { serviceContext := some { service := "", version := "" } } } ∧
    ∃ j : Json,
      ((New cfgNoId).emitAt .info cfgNoId "T" "" "" 0 "hello").2.lines = [Json.render j] ∧
      Json.lookup j "serviceContext" = some (.obj .nil) :=
  empty_identity_construction_and_empty_serviceContext cfgNoId (New cfgNoId) .info
    "T" "" "" 0 "hello" rfl rfl rfl (by decide)

/-! ## C2 -/

/-- The run refuting C2: an Error call followed by an Info call on the same
logger (the Error call site is main.go line 42). -/
def infoAfterErrorRun : Log × Output :=
  ((New cfgEx).Error cfgEx "T1" "goroutine 1 [running]:" "main.go" 42 "boom").1.Info
    cfgEx "T2" "hello"

/-- C2 failing run: the INFO entry emitted after an Error on the same
logger still carries the stale stacktrace member and the stale
context.reportLocation member, because log persists the payload (contrary
to its own comment) and Error stores the stacktrace and report location
into it.  The claim says DEBUG/INFO/WARN entries never carry these keys
regardless of earlier emit operations. -/
theorem info_after_error_carries_error_keys :
    ∃ j : Json, infoAfterErrorRun.2.lines = [Json.render j] ∧
      Json.lookup j "severity" = some (.str "INFO") ∧
      (Json.lookup j "stacktrace").isSome = true ∧
      ∃ cj, Json.lookup j "context" = some cj ∧
        (Json.lookup cj "reportLocation").isSome = true :=
  ⟨marshalPayload
      { severity := logLevelName .info, eventTime := "T2", message := "hello",
        serviceContext := some { service := "svc", version := "1.0" },
        context := some
          { data := []
            reportLocation := some
              { filePath := "main.go", functionName := "unknown", lineNumber := 42 } },
        stacktrace := "goroutine 1 [running]:" },
   rfl, rfl, rfl,
   marshalContext
      { data := []
        reportLocation := some
          { filePath := "main.go", functionName := "unknown", lineNumber := 42 } },
   rfl, rfl⟩

/-! ## C9 -/

/-- C9: when the marshal step fails, the failure is printed to the fallback
diagnostic channel, the logger returns normally with no change beyond the
already stored payload, and the single line Fprintln still writes (Go
writes string of a nil byte slice) is empty — not the rendering of any
JSON object, so no structured line reaches the sink.  On the Go Payload
field types (strings, an int, map of string to string) encoding/json is
total, so the real log call always takes the ok branch; logWith exposes the
branch on the marshal outcome exactly as the source orders it. -/
theorem marshal_failure_reported_no_json_line (l : Log) (e : String) :
    (logWith l (.error e)).1 = l ∧
    (logWith l (.error e)).2.fallback = ["logger error: cannot marshal payload: " ++ e] ∧
    (logWith l (.error e)).2.lines = [""] ∧
    ∀ ms : Members, "" ≠ Json.render (.obj ms) := by
  refine ⟨rfl, rfl, rfl, ?_⟩
  intro ms h
  have hlen := congrArg String.length h
  rw [Json.render] at hlen
  simp only [String.length_append] at hlen
  rw [show ("\x7b" : String).length = 1 from rfl,
      show ("\x7d" : String).length = 1 from rfl,
      show ("" : String).length = 0 from rfl] at hlen
  omega

/-! ## C10 -/

/-- C10: Metric and Info are observationally equivalent: for every logger
state, configuration, timestamp and message they perform the same INFO
threshold check and produce the same state and output. -/
theorem metric_equals_info (l : Log) (cfg : Config) (now msg : String) :
    l.Metric cfg now msg = l.Info cfg now msg := rfl

end StackdriverLogger
